import Mathlib

/-!
Verification of the slot-cli engine (`src/cli/slot-cli/main.go`) of the
`exceder` repository.

Strings are modelled as `List Char` (`Str`); a text file is a list of
lines (the Go code splits on a newline, and every search pattern and
replacement used below contains no newline, so Go's whole-string
`strings.ReplaceAll` coincides with a line-by-line replacement).
Machine integers are modelled as `Nat` (all the ports involved are small
positive numbers, far from any overflow).  External effects
(`net.Listen`, `git`, `docker`, the filesystem) are modelled as explicit
inputs: a port-availability predicate, boolean outcomes of the spawned
commands, and an explicit registry-file value.
-/

/-- Strings as character lists, so that every operation is a plain
computable function amenable to `decide`. -/
abbrev Str : Type := List Char

/-- Embedding of Go `strings.ReplaceAll` on character lists, fuelled so
that it is structurally recursive (the fuel is always instantiated with
the length of the scanned list, which suffices).  Matches are found left
to right, are non-overlapping, and the replacement text is not
re-scanned, exactly as in Go.  The Go call sites below never pass an
empty pattern, and an empty pattern never matches here. -/
def replaceAllF (pat rep : List Char) : Nat → List Char → List Char
  | 0, s => s
  | _ + 1, [] => []
  | fuel + 1, c :: rest =>
    if pat ≠ [] ∧ pat.isPrefixOf (c :: rest) then
      rep ++ replaceAllF pat rep fuel ((c :: rest).drop pat.length)
    else
      c :: replaceAllF pat rep fuel rest

/-- Go `strings.ReplaceAll pat rep` on a line. -/
def replaceAll (pat rep s : List Char) : List Char :=
  replaceAllF pat rep s.length s

/-! ## Port patterns of the env-file rewrite (main.go 2660-2668) -/

/-- Decimal digits of a port number, as characters. -/
def natChars (n : Nat) : List Char := (Nat.repr n).toList

/-- The pattern `=PORT` (and its replacement `=SLOT`). -/
def eqPat (n : Nat) : List Char := '=' :: natChars n

/-- The pattern `="PORT"`. -/
def eqQuotPat (n : Nat) : List Char := '=' :: '"' :: (natChars n ++ ['"'])

/-- The pattern `localhost:PORT`. -/
def localhostPat (n : Nat) : List Char := "localhost:".toList ++ natChars n

/-- One iteration of the port-replacement loop of `updateSlotEnvFiles`
(main.go 2661-2668): replace `=P`, then `="P"`, then `localhost:P`. -/
def applyPortPair (mainPort slotPort : Nat) (line : List Char) : List Char :=
  replaceAll (localhostPat mainPort) (localhostPat slotPort)
    (replaceAll (eqQuotPat mainPort) (eqQuotPat slotPort)
      (replaceAll (eqPat mainPort) (eqPat slotPort) line))

/-- The whole port-replacement loop, over the map entries in a fixed
order (Go iterates its map in an unspecified order; the order is a
parameter here). -/
def applyPortMap (pairs : List (Nat × Nat)) (line : List Char) : List Char :=
  pairs.foldl (fun l p => applyPortPair p.1 p.2 l) line

/-- Sanitization of the slot name into the docker project name
(main.go 2618): every character outside `[a-z0-9-]` becomes a dash, and
the result is lower-cased. -/
def dockerNameOf (slotName : List Char) : List Char :=
  (slotName.map (fun c =>
    if ('a' ≤ c ∧ c ≤ 'z') ∨ ('0' ≤ c ∧ c ≤ '9') ∨ c = '-' then c else '-')).map
    Char.toLower

/-- The fixed prefix matched by the regex `^COMPOSE_PROJECT_NAME=.*$`. -/
def composePrefix : List Char := "COMPOSE_PROJECT_NAME=".toList

/-- The canonical compose line written by the rewrite. -/
def composeLineOf (slotName : List Char) : List Char :=
  composePrefix ++ dockerNameOf slotName

/-- The `COMPOSE_PROJECT_NAME` step of `updateSlotEnvFiles`
(main.go 2652-2658): the multiline regex `^COMPOSE_PROJECT_NAME=.*$`
matches exactly the lines starting with `COMPOSE_PROJECT_NAME=`; every
such line is rewritten to the canonical line, and when none matches the
canonical line is prepended. -/
def setComposeLine (slotName : List Char) (content : List (List Char)) :
    List (List Char) :=
  if content.any (fun l => composePrefix.isPrefixOf l) then
    content.map (fun l =>
      if composePrefix.isPrefixOf l then composeLineOf slotName else l)
  else
    composeLineOf slotName :: content

/-- The pure content transformation performed by `updateSlotEnvFiles`
(main.go 2649-2668) on one env file, the function the repository unit
tests under the name `replacePortsInEnvContent`: insert or update
`COMPOSE_PROJECT_NAME`, then run the port replacements over the whole
content. -/
def replacePortsInEnvContent (pairs : List (Nat × Nat)) (slotName : List Char)
    (content : List (List Char)) : List (List Char) :=
  (setComposeLine slotName content).map (applyPortMap pairs)

/-! ## Port discovery: `scanPorts` (main.go 2218-2289) -/

/-- The RE2 character class `[A-Z_]` of the env-var regex. -/
def isUpperUnd (c : Char) : Bool :=
  if ('A' ≤ c ∧ c ≤ 'Z') ∨ c = '_' then true else false

/-- The RE2 class `\s` (Go regexp whitespace). -/
def isSpaceRE (c : Char) : Bool :=
  if c = ' ' ∨ c = '\t' ∨ c = '\n' ∨ c = '\x0c' ∨ c = '\r' then true else false

/-- Value of a run of decimal digits (Go `strconv.Atoi` on the captured
digits; the ports involved are far below any integer bound). -/
def digitsToNat (ds : List Char) : Nat :=
  ds.foldl (fun a c => a * 10 + (c.toNat - '0'.toNat)) 0

/-- The env-var regex `^([A-Z_]*PORT)=["']?(\d+)["']?` of `scanPorts`
(main.go 2247), applied to one line: anchored at the line start, the
captured variable is the maximal `[A-Z_]` run (which must end in
`PORT` and be followed by `=`), then an optional quote, then a maximal
non-empty digit run (the trailing optional quote constrains nothing).
Returns the captured variable name and numeric port. -/
def extractPortFromEnvLine (line : List Char) : Option (Str × Nat) :=
  let run := line.takeWhile isUpperUnd
  let rest := line.drop run.length
  if ("PORT".toList).isSuffixOf run then
    match rest with
    | '=' :: afterEq =>
      let afterQ :=
        match afterEq with
        | c :: t => if c = '"' ∨ c = '\'' then t else afterEq
        | [] => afterEq
      let ds := afterQ.takeWhile Char.isDigit
      if ds ≠ [] then some (run, digitsToNat ds) else none
    | _ => none
  else none

/-- All matches of the regex `localhost:(\d+)` in a line, in order
(Go `FindAllStringSubmatch`: leftmost, non-overlapping, maximal digit
runs; scanning resumes after each match).  Fuelled with the line length
(each step consumes at least one character). -/
def localhostOccs : Nat → List Char → List Nat
  | 0, _ => []
  | _ + 1, [] => []
  | fuel + 1, c :: rest =>
    if ("localhost:".toList).isPrefixOf (c :: rest) then
      let after := (c :: rest).drop 10
      let ds := after.takeWhile Char.isDigit
      if ds ≠ [] then digitsToNat ds :: localhostOccs fuel (after.drop ds.length)
      else localhostOccs fuel rest
    else localhostOccs fuel rest

/-- All matches of the regex `-p\s+(\d+)` in a line, in order
(main.go 2249): a literal `-p`, at least one whitespace character, a
maximal non-empty digit run. -/
def pFlagOccs : Nat → List Char → List Nat
  | 0, _ => []
  | _ + 1, [] => []
  | fuel + 1, '-' :: 'p' :: rest =>
    let ws := rest.takeWhile isSpaceRE
    let after := rest.drop ws.length
    let ds := after.takeWhile Char.isDigit
    if ws ≠ [] ∧ ds ≠ [] then
      digitsToNat ds :: pFlagOccs fuel (after.drop ds.length)
    else pFlagOccs fuel ('p' :: rest)
  | fuel + 1, _ :: rest => pFlagOccs fuel rest

/-- Comment-line test of the scanner (main.go 2252): the line, with
leading whitespace trimmed, starts with `#`. -/
def isCommentLine (line : List Char) : Bool :=
  match line.dropWhile isSpaceRE with
  | '#' :: _ => true
  | _ => false

/-- A file seen by the `filepath.Walk` traversal: its path relative to
the scanned root, its base name, and its content split into lines. -/
structure ScannedFile where
  rel : Str
  base : Str
  lines : List Str

/-- Directory fragments skipped by the walk (main.go 2227). -/
def skipDirs : List Str :=
  (["node_modules", ".next", "dist", ".git"].map String.toList : List Str)

/-- Go `strings.Contains`, as a decidable infix test. -/
def containsStr (hay needle : List Char) : Bool := decide (needle <:+: hay)

/-- `strings.Contains(baseName, ".env") && !strings.Contains(baseName,
".example")` (main.go 2235). -/
def isEnvFileName (base : Str) : Bool :=
  containsStr base (".env".toList) && !(containsStr base (".example".toList))

/-- `baseName == ".mcp.json" || baseName == "package.json"`
(main.go 2236). -/
def isConfigFileName (base : Str) : Bool :=
  base = ".mcp.json".toList ∨ base = "package.json".toList

/-- Whether the walk inspects the file at all (main.go 2226-2240). -/
def shouldScanFile (f : ScannedFile) : Bool :=
  !(skipDirs.any (fun d => containsStr f.rel d)) &&
    (isEnvFileName f.base || isConfigFileName f.base)

/-- The ordered stream of `(port, label)` extractions produced by one
line of one file (main.go 2251-2283): the env-var match (env files
only), then every `localhost:` match labelled `URL`, then every `-p`
match labelled `script` (package.json only); each filtered by
`port > 1000`. -/
def lineOccs (f : ScannedFile) (line : Str) : List (Nat × Str) :=
  if isCommentLine line then []
  else
    (if isEnvFileName f.base then
      match extractPortFromEnvLine line with
      | some (v, p) => if p > 1000 then [(p, v)] else []
      | none => []
    else []) ++
    ((localhostOccs line.length line).filter (fun p => p > 1000)).map
      (fun p => (p, "URL".toList)) ++
    (if isConfigFileName f.base ∧ f.base = "package.json".toList then
      ((pFlagOccs line.length line).filter (fun p => p > 1000)).map
        (fun p => (p, "script".toList))
    else [])

/-- The ordered extraction stream of one file. -/
def filePortOccs (f : ScannedFile) : List (Nat × Str) :=
  if shouldScanFile f then f.lines.flatMap (lineOccs f) else []

/-- The first-wins insertion of `scanPorts`: `if _, exists :=
ports[port]; !exists { ports[port] = label }` (main.go 2259, 2268,
2277). -/
def insertFirst (m : List (Nat × Str)) (kv : Nat × Str) : List (Nat × Str) :=
  if (m.lookup kv.1).isSome then m else m ++ [kv]

/-- `scanPorts` (main.go 2218-2289): fold the first-wins insertion over
the extraction stream of the walked files, in walk order (Go's
`filepath.Walk` visits files in a deterministic lexical order, so the
file list is an input here). -/
def scanPorts (files : List ScannedFile) : List (Nat × Str) :=
  (files.flatMap filePortOccs).foldl insertFirst []

/-! ## Port allocation: `scanAndAllocatePorts` (main.go 2591-2615) -/

/-- The collision-probing loop of `scanAndAllocatePorts` (main.go
2596-2599): `for !isPortAvailable(slotPort) { slotPort++ }`.
`isPortAvailable` (main.go 2608-2615) is a live TCP bind test and is
abstracted as the availability predicate `avail`.  The Go loop is
unbounded; the fuel argument indexes how many probes a run may make,
and `none` models a run that has not found a port within that many
probes (for every fuel). -/
def probePort (avail : Nat → Bool) : Nat → Nat → Option Nat
  | 0, _ => none
  | fuel + 1, p => if avail p then some p else probePort avail fuel (p + 1)

/-- The allocation loop of `scanAndAllocatePorts` (main.go 2591-2603):
for each discovered main port (in some order of Go's randomized map
iteration, here an explicit list), start probing at `main + slotNum`
against live TCP availability only, and record the first available
candidate.  The loop consults neither the ports already assigned in
this batch nor the main ports themselves. -/
def scanAndAllocatePortsLoop (avail : Nat → Bool) (fuel : Nat)
    (portVars : List (Nat × Str)) (slotNum : Nat) : Option (List (Nat × Nat)) :=
  portVars.foldl
    (fun acc mv => acc.bind fun m =>
      (probePort avail fuel (mv.1 + slotNum)).map fun s => m ++ [(mv.1, s)])
    (some [])

/-! ## Deletion-safety classification: `cmdClean` (main.go 1106-1149) -/

/-- The state a worktree is classified into by `cmdClean`. -/
inductive CleanState where
  | locked
  | dirty
  | unpushed
  | unmerged
  | clean
deriving DecidableEq, Repr

/-- The per-worktree classification of `cmdClean` (main.go 1126-1148):
the lock check (1127), then the `if uncommitted / else if unpushed /
else if unmergedCount > 0 / else` chain (1136-1148).  Inputs are the
computed facts: the registry lock flag, whether `git status
--porcelain` output is non-empty (1106-1108), whether `git log
origin/branch..HEAD` output is non-empty (1110-1112), and the number
of commits not in main (1114-1122). -/
def classifyWorktree (lockedFlag uncommitted unpushedFlag : Bool)
    (unmergedCount : Nat) : CleanState :=
  if lockedFlag then .locked
  else if uncommitted then .dirty
  else if unpushedFlag then .unpushed
  else if unmergedCount > 0 then .unmerged
  else .clean

/-- Whether a given state's defining condition holds for a worktree. -/
def cleanStateHolds (lockedFlag uncommitted unpushedFlag : Bool)
    (unmergedCount : Nat) : CleanState → Bool
  | .locked => lockedFlag
  | .dirty => uncommitted
  | .unpushed => unpushedFlag
  | .unmerged => decide (unmergedCount > 0)
  | .clean => true

/-- The spec's priority order: locked > dirty > unpushed > unmerged >
clean. -/
def cleanPriority : List CleanState :=
  [.locked, .dirty, .unpushed, .unmerged, .clean]

/-- Second definition, following the spec's words (for the refinement
statement of the classification claim): the first state in the priority
order whose condition holds. -/
def specFirstMatchingState (lockedFlag uncommitted unpushedFlag : Bool)
    (unmergedCount : Nat) : CleanState :=
  (cleanPriority.find?
    (cleanStateHolds lockedFlag uncommitted unpushedFlag unmergedCount)).getD
    .clean

/-! ## Sync: `cmdSync` (main.go 763-837) -/

/-- The external operations `cmdSync` spawns, in source order:
`git status --porcelain` (787), `git fetch` (796-799), the two
`git rev-list --count` calls (803-807), `git rebase main` (818), and
the dependency install (836).  `gitRebaseAbort` is listed so that its
absence from every trace is expressible. -/
inductive GitOp where
  | gitStatusCheck
  | gitFetch
  | gitRevListBehind
  | gitRevListAhead
  | gitRebase
  | gitRebaseAbort
  | depsInstall
deriving DecidableEq, Repr

/-- The observable state of the slot's working copy around a rebase. -/
inductive WorkTreeState where
  | preRebase
  | midRebase
  | rebased
deriving DecidableEq, Repr

/-- `cmdSync` (main.go 763-837), modelled after the in-repository
checks (767-782) succeed: given whether `git status --porcelain`
reports uncommitted changes, the behind-count reported by `git
rev-list`, and whether `git rebase main` hits a conflict, the trace of
spawned operations and the exit code.  On conflict the code prints the
recovery commands and exits 1 (822-831); it runs no `git rebase
--abort`. -/
def cmdSync (uncommitted : Bool) (behind : Nat) (conflict : Bool) :
    List GitOp × Nat :=
  if uncommitted then ([.gitStatusCheck], 1)
  else if behind = 0 then
    ([.gitStatusCheck, .gitFetch, .gitRevListBehind, .gitRevListAhead], 0)
  else if conflict then
    ([.gitStatusCheck, .gitFetch, .gitRevListBehind, .gitRevListAhead,
      .gitRebase], 1)
  else
    ([.gitStatusCheck, .gitFetch, .gitRevListBehind, .gitRevListAhead,
      .gitRebase, .depsInstall], 0)

/-- Effect of one spawned operation on the working copy (git
semantics: a conflicting rebase stops mid-way with the working copy in
the conflicted intermediate state; `git rebase --abort` restores the
pre-rebase state; the other operations leave the working copy alone). -/
def applyGitOp (conflict : Bool) (w : WorkTreeState) : GitOp → WorkTreeState
  | .gitRebase => if conflict then .midRebase else .rebased
  | .gitRebaseAbort => .preRebase
  | _ => w

/-- The working-copy state after a trace of operations, starting from
the pre-rebase state. -/
def runGitOps (conflict : Bool) (ops : List GitOp) : WorkTreeState :=
  ops.foldl (applyGitOp conflict) .preRebase

/-! ## The registry file (main.go 17-42, 3066-3103) -/

/-- A JSON value (numbers are modelled as integers; every number in
the registry schema is an integer). -/
inductive JVal where
  | jnull
  | jbool (b : Bool)
  | jnum (n : Int)
  | jstr (s : Str)
  | jarr (elems : List JVal)
  | jobj (fields : List (Str × JVal))

/-- `GroupConfig` (main.go 23-26). -/
structure GroupConfig where
  name : Str
  order : Int
deriving DecidableEq, Repr

/-- `ProjectConfig` (main.go 28-32). -/
structure ProjectConfig where
  basePort : Int
  path : Str
  group : Str
deriving DecidableEq, Repr

/-- `SlotConfig` (main.go 34-42). -/
structure SlotConfig where
  project : Str
  number : Int
  name : Str
  branch : Str
  createdAt : Str
  locked : Bool
  lockNote : Str
deriving DecidableEq, Repr

/-- The in-memory `Registry` (main.go 17-21); the three Go maps are
association lists (decoded in file order; field names inside one JSON
object are assumed distinct). -/
structure Registry where
  groups : List (Str × GroupConfig)
  projects : List (Str × ProjectConfig)
  slots : List (Str × SlotConfig)
deriving DecidableEq, Repr

/-- The `Registry` value right after `json.Unmarshal`, where a map that
the document does not mention is still `nil` (modelled as `none`). -/
structure RegistryRaw where
  groups : Option (List (Str × GroupConfig))
  projects : Option (List (Str × ProjectConfig))
  slots : Option (List (Str × SlotConfig))

/-- Go `encoding/json` decoding of a string field: a JSON string, or
`null` (which leaves the zero value `""`); anything else is an
unmarshalling error. -/
def decodeStr : JVal → Option Str
  | .jstr s => some s
  | .jnull => some []
  | _ => none

/-- Decoding of an integer field (zero value `0` on `null`). -/
def decodeInt : JVal → Option Int
  | .jnum n => some n
  | .jnull => some 0
  | _ => none

/-- Decoding of a boolean field (zero value `false` on `null`). -/
def decodeBool : JVal → Option Bool
  | .jbool b => some b
  | .jnull => some false
  | _ => none

/-- Decoding of one struct field: an absent key leaves the zero value,
a present key must decode. -/
def decodeField (dec : JVal → Option α) (dflt : α)
    (fields : List (Str × JVal)) (k : String) : Option α :=
  match List.lookup k.toList fields with
  | none => some dflt
  | some v => dec v

/-- Decoding of `GroupConfig` from a JSON value: unknown fields are
ignored by `encoding/json`, `null` leaves the zero struct. -/
def decodeGroupConfig : JVal → Option GroupConfig
  | .jobj fs =>
    match decodeField decodeStr [] fs "name",
        decodeField decodeInt 0 fs "order" with
    | some n, some o => some ⟨n, o⟩
    | _, _ => none
  | .jnull => some ⟨[], 0⟩
  | _ => none

/-- Decoding of `ProjectConfig` from a JSON value. -/
def decodeProjectConfig : JVal → Option ProjectConfig
  | .jobj fs =>
    match decodeField decodeInt 0 fs "base_port",
        decodeField decodeStr [] fs "path",
        decodeField decodeStr [] fs "group" with
    | some b, some p, some g => some ⟨b, p, g⟩
    | _, _, _ => none
  | .jnull => some ⟨0, [], []⟩
  | _ => none

/-- Decoding of `SlotConfig` from a JSON value. -/
def decodeSlotConfig : JVal → Option SlotConfig
  | .jobj fs =>
    match decodeField decodeStr [] fs "project",
        decodeField decodeInt 0 fs "number",
        decodeField decodeStr [] fs "name",
        decodeField decodeStr [] fs "branch",
        decodeField decodeStr [] fs "created_at",
        decodeField decodeBool false fs "locked",
        decodeField decodeStr [] fs "lock_note" with
    | some pr, some nu, some na, some br, some ca, some lo, some ln =>
      some ⟨pr, nu, na, br, ca, lo, ln⟩
    | _, _, _, _, _, _, _ => none
  | .jnull => some ⟨[], 0, [], [], [], false, []⟩
  | _ => none

/-- Decoding of a JSON object into a Go `map[string]T`, entry by
entry; any entry failing to decode fails the whole unmarshal. -/
def decodeEntries (dec : JVal → Option α) :
    List (Str × JVal) → Option (List (Str × α))
  | [] => some []
  | (k, v) :: rest =>
    match dec v, decodeEntries dec rest with
    | some a, some r => some ((k, a) :: r)
    | _, _ => none

/-- Decoding of one of the three map fields of `Registry`: an absent
key or a JSON `null` leaves the map `nil`; a JSON object decodes entry
by entry; any other value is an unmarshalling error. -/
def decodeMapField (dec : JVal → Option α)
    (fields : List (Str × JVal)) (k : String) :
    Option (Option (List (Str × α))) :=
  match List.lookup k.toList fields with
  | none => some none
  | some .jnull => some none
  | some (.jobj fs) => (decodeEntries dec fs).map some
  | some _ => none

/-- `json.Unmarshal(data, &reg)` for the `Registry` struct: the
document must be a JSON object (or `null`, which leaves the zero
struct); unknown top-level fields are ignored — the Go struct has no
field to hold them. -/
def decodeRegistry : JVal → Option RegistryRaw
  | .jobj fs =>
    match decodeMapField decodeGroupConfig fs "groups",
        decodeMapField decodeProjectConfig fs "projects",
        decodeMapField decodeSlotConfig fs "slots" with
    | some g, some p, some s => some ⟨g, p, s⟩
    | _, _, _ => none
  | .jnull => some ⟨none, none, none⟩
  | _ => none

/-- The state of the registry file on disk: absent (or unreadable),
present but not valid JSON, or a parsed JSON document. -/
inductive RegFile where
  | absent
  | malformed
  | content (v : JVal)

/-- The registry with all three maps empty. -/
def emptyRegistry : Registry := ⟨[], [], []⟩

/-- The `Registry` value before the nil-map patching of
`loadRegistry`: a read error (3069-3076) or an unmarshal error
(3078-3085) yields a fresh registry with explicitly made (empty) maps;
otherwise the decoded value, whose maps may be nil. -/
def loadRegistryRaw : RegFile → RegistryRaw
  | .absent => ⟨some [], some [], some []⟩
  | .malformed => ⟨some [], some [], some []⟩
  | .content v =>
    match decodeRegistry v with
    | none => ⟨some [], some [], some []⟩
    | some raw => raw

/-- `loadRegistry` (main.go 3066-3098): load, then replace every nil
map by an empty one (3087-3095). -/
def loadRegistry (f : RegFile) : Registry :=
  let raw := loadRegistryRaw f
  ⟨raw.groups.getD [], raw.projects.getD [], raw.slots.getD []⟩

/-- Marshalling of `GroupConfig` (tags `name`, `order`). -/
def marshalGroupConfig (g : GroupConfig) : JVal :=
  .jobj [("name".toList, .jstr g.name), ("order".toList, .jnum g.order)]

/-- Marshalling of `ProjectConfig` (tags `base_port`, `path`,
`group,omitempty`). -/
def marshalProjectConfig (p : ProjectConfig) : JVal :=
  .jobj ([("base_port".toList, .jnum p.basePort),
      ("path".toList, .jstr p.path)] ++
    (if p.group = [] then [] else [("group".toList, .jstr p.group)]))

/-- Marshalling of `SlotConfig` (tags `project`, `number`, `name`,
`branch`, `created_at`, `locked,omitempty`, `lock_note,omitempty`). -/
def marshalSlotConfig (s : SlotConfig) : JVal :=
  .jobj ([("project".toList, .jstr s.project),
      ("number".toList, .jnum s.number),
      ("name".toList, .jstr s.name),
      ("branch".toList, .jstr s.branch),
      ("created_at".toList, .jstr s.createdAt)] ++
    (if s.locked then [("locked".toList, .jbool s.locked)] else []) ++
    (if s.lockNote = [] then []
     else [("lock_note".toList, .jstr s.lockNote)]))

/-- Marshalling of a map field, entry by entry. -/
def marshalEntries (enc : α → JVal) (m : List (Str × α)) :
    List (Str × JVal) :=
  m.map fun kv => (kv.1, enc kv.2)

/-- `json.MarshalIndent(reg, ...)` in `saveRegistry` (main.go
3100-3103): struct fields in declaration order, with
`groups,omitempty` dropped when the map is empty.  (Go sorts map keys
when marshalling; the claims below only inspect key membership, so the
entry order of the association list is kept.) -/
def marshalRegistry (reg : Registry) : JVal :=
  .jobj
    ((if reg.groups = [] then []
      else [("groups".toList,
        JVal.jobj (marshalEntries marshalGroupConfig reg.groups))]) ++
      [("projects".toList,
        JVal.jobj (marshalEntries marshalProjectConfig reg.projects)),
       ("slots".toList,
        JVal.jobj (marshalEntries marshalSlotConfig reg.slots))])

/-- The top-level fields of a marshalled document. -/
def jobjFields : JVal → List (Str × JVal)
  | .jobj fs => fs
  | _ => []

/-! ## Delete and done: `cmdDelete` (575-647) and `cmdDone` (892-972) -/

/-- The external actions the two removal commands may take, in source
order. -/
inductive DelOp where
  | dockerStop
  | gitMerge
  | worktreeRemove
  | branchDelete
  | registryRemove
deriving DecidableEq, Repr

/-- `removeFromRegistry` (main.go 3135-3139): drop the slot's entry
and persist. -/
def removeFromRegistry (reg : Registry) (slotName : Str) : Registry :=
  { reg with slots := reg.slots.filter fun kv => kv.1 ≠ slotName }

/-- The lock test of both commands: `if slot, ok :=
reg.Slots[slotName]; ok && slot.Locked` (main.go 614, 920). -/
def slotLocked (reg : Registry) (slotName : Str) : Bool :=
  match List.lookup slotName reg.slots with
  | some slot => slot.locked
  | none => false

/-- `cmdDelete` (main.go 575-647), modelled after argument parsing and
slot-name resolution: inputs are the force flag, whether the slot
directory exists (`os.Stat`, 607), whether `git status --porcelain`
reports changes (624), the loaded registry and the slot name.  Output:
exit code, the actions taken against external state, and the registry
as persisted when the run ends. -/
def cmdDelete (force slotExists uncommitted : Bool) (reg : Registry)
    (slotName : Str) : Nat × List DelOp × Registry :=
  if !slotExists then (1, [], reg)
  else if slotLocked reg slotName then (1, [], reg)
  else if uncommitted && !force then (1, [], reg)
  else (0, [.dockerStop, .worktreeRemove, .branchDelete, .registryRemove],
    removeFromRegistry reg slotName)

/-- `cmdDone` (main.go 892-972), modelled after the in-repository
check (903-906): inputs are the force flag, whether the command runs
from the main worktree rather than a slot (909), whether `git status
--porcelain` reports changes (933), whether `git merge` conflicts
(951), the loaded registry and the slot name.  On conflict the docker
stop has already happened, the merge was attempted, and the command
exits 1 with the registry untouched (951-958). -/
def cmdDone (force inMainWorktree uncommitted mergeConflict : Bool)
    (reg : Registry) (slotName : Str) : Nat × List DelOp × Registry :=
  if inMainWorktree then (1, [], reg)
  else if slotLocked reg slotName then (1, [], reg)
  else if uncommitted && !force then (1, [], reg)
  else if mergeConflict then (1, [.dockerStop, .gitMerge], reg)
  else (0, [.dockerStop, .gitMerge, .worktreeRemove, .branchDelete,
    .registryRemove], removeFromRegistry reg slotName)

/-- A concrete registry holding one locked slot `app-1`. -/
def lockedReg : Registry :=
  ⟨[], [],
    [("app-1".toList,
      ⟨"app".toList, 1, [], "slot-1".toList, "2026-01-01".toList, true,
        "wip".toList⟩)]⟩

/-- A concrete registry holding one unlocked slot `app-1`. -/
def unlockedReg : Registry :=
  ⟨[], [],
    [("app-1".toList,
      ⟨"app".toList, 1, [], "slot-1".toList, "2026-01-01".toList, false,
        []⟩)]⟩

/-- A concrete registry document carrying a top-level field `custom`
unknown to the tool. -/
def regFileWithUnknownField : JVal :=
  .jobj [("projects".toList, .jobj []), ("slots".toList, .jobj []),
    ("custom".toList, .jstr "keep-me".toList)]

/-! ## Theorems -/

/-- A pattern that does not occur in a line leaves the line unchanged
under `replaceAllF`, for any fuel. -/
theorem replaceAllF_of_no_occur (pat rep : List Char) :
    ∀ (fuel : Nat) (s : List Char), ¬ pat <:+: s → replaceAllF pat rep fuel s = s := by
  intro fuel
  induction fuel with
  | zero => intro s _; rfl
  | succ n ih =>
    intro s hs
    match s with
    | [] => rfl
    | c :: rest =>
      have hpre : ¬ (pat ≠ [] ∧ pat.isPrefixOf (c :: rest)) := by
        rintro ⟨-, hp⟩
        exact hs (List.IsPrefix.isInfix (List.isPrefixOf_iff_prefix.mp hp))
      have hrest : ¬ pat <:+: rest := fun h => hs (List.infix_cons h)
      simp only [replaceAllF, if_neg hpre]
      rw [ih rest hrest]

/-- A pattern that does not occur in a line leaves the line unchanged
under `replaceAll`. -/
theorem replaceAll_of_no_occur (pat rep s : List Char)
    (h : ¬ pat <:+: s) : replaceAll pat rep s = s :=
  replaceAllF_of_no_occur pat rep s.length s h

/-- If none of the three patterns of a main port occurs in a line, the
corresponding replacement pass leaves the line unchanged. -/
theorem applyPortPair_of_no_occur (m s : Nat) (l : List Char)
    (h1 : ¬ eqPat m <:+: l) (h2 : ¬ eqQuotPat m <:+: l)
    (h3 : ¬ localhostPat m <:+: l) : applyPortPair m s l = l := by
  unfold applyPortPair
  rw [replaceAll_of_no_occur _ _ _ h1, replaceAll_of_no_occur _ _ _ h2,
    replaceAll_of_no_occur _ _ _ h3]

/-- If no pattern of any map entry occurs in a line, the whole
port-replacement loop leaves the line unchanged. -/
theorem applyPortMap_of_no_occur (pairs : List (Nat × Nat)) (l : List Char)
    (h : ∀ p ∈ pairs,
      ¬ eqPat p.1 <:+: l ∧ ¬ eqQuotPat p.1 <:+: l ∧ ¬ localhostPat p.1 <:+: l) :
    applyPortMap pairs l = l := by
  induction pairs with
  | nil => rfl
  | cons p ps ih =>
    have hp := h p (List.mem_cons_self p ps)
    unfold applyPortMap at ih ⊢
    simp only [List.foldl_cons]
    rw [applyPortPair_of_no_occur p.1 p.2 l hp.1 hp.2.1 hp.2.2]
    exact ih fun q hq => h q (List.mem_cons_of_mem p hq)

/-- A list maps to itself when the function fixes each member. -/
theorem map_fixes_of_mem {α : Type} (l : List α) (f : α → α)
    (h : ∀ a ∈ l, f a = a) : l.map f = l := by
  conv_rhs => rw [(List.map_id l).symm]
  exact List.map_congr_left h

/-- C3, counterexample: the env-file rewrite is not idempotent for
every port map.  With the map `{3000 ↦ 5000, 4000 ↦ 3000}` (in that
iteration order) on the single line `A=4000`, the first rewrite yields
`A=3000` and the second rewrite then yields `A=5000`: the second
rewrite produces a diff. -/
theorem replacePortsInEnvContent_not_idem :
    replacePortsInEnvContent [(3000, 5000), (4000, 3000)] ("s".toList)
        (replacePortsInEnvContent [(3000, 5000), (4000, 3000)] ("s".toList)
          [("A=4000".toList)])
      ≠ replacePortsInEnvContent [(3000, 5000), (4000, 3000)] ("s".toList)
        [("A=4000".toList)] := by
  decide

/-- C3, amended: the env-file rewrite is idempotent whenever the
once-rewritten content is residue-free — no pattern `=P`, `="P"` or
`localhost:P` of any main port `P` of the map still occurs in it, and
its `COMPOSE_PROJECT_NAME`-prefixed lines (of which there is at least
one) are exactly the canonical compose line.  Then the second rewrite
produces no diff. -/
theorem replacePortsInEnvContent_idem (pairs : List (Nat × Nat))
    (slotName : List Char) (content : List (List Char))
    (hres : ∀ p ∈ pairs,
      ∀ l ∈ replacePortsInEnvContent pairs slotName content,
        ¬ eqPat p.1 <:+: l ∧ ¬ eqQuotPat p.1 <:+: l ∧
          ¬ localhostPat p.1 <:+: l)
    (hcanon : ∀ l ∈ replacePortsInEnvContent pairs slotName content,
      composePrefix.isPrefixOf l = true → l = composeLineOf slotName)
    (hsome : ∃ l ∈ replacePortsInEnvContent pairs slotName content,
      composePrefix.isPrefixOf l = true) :
    replacePortsInEnvContent pairs slotName
        (replacePortsInEnvContent pairs slotName content)
      = replacePortsInEnvContent pairs slotName content := by
  have hset : setComposeLine slotName
      (replacePortsInEnvContent pairs slotName content)
      = replacePortsInEnvContent pairs slotName content := by
    unfold setComposeLine
    rw [if_pos]
    · refine map_fixes_of_mem _ _ ?_
      intro l hl
      by_cases hp : composePrefix.isPrefixOf l
      · rw [if_pos hp, hcanon l hl hp]
      · rw [if_neg hp]
    · rw [List.any_eq_true]
      obtain ⟨l, hl, hp⟩ := hsome
      exact ⟨l, hl, hp⟩
  have happly : (replacePortsInEnvContent pairs slotName content).map
      (applyPortMap pairs) = replacePortsInEnvContent pairs slotName content := by
    refine map_fixes_of_mem _ _ ?_
    intro l hl
    exact applyPortMap_of_no_occur pairs l fun p hp => hres p hp l hl
  show (setComposeLine slotName
      (replacePortsInEnvContent pairs slotName content)).map
      (applyPortMap pairs) = replacePortsInEnvContent pairs slotName content
  rw [hset, happly]

/-- C3 witness: the repository's own first unit-test case
(`PORT=3000`, `DB_PORT=5432`, map `{3000 ↦ 3010, 5432 ↦ 5442}`, slot
`exceder-1`) satisfies the residue-freeness hypotheses, so rewriting it
twice equals rewriting it once. -/
theorem replacePortsInEnvContent_idem_witness :
    replacePortsInEnvContent [(3000, 3010), (5432, 5442)]
        ("exceder-1".toList)
        (replacePortsInEnvContent [(3000, 3010), (5432, 5442)]
          ("exceder-1".toList)
          [("PORT=3000".toList), ("DB_PORT=5432".toList)])
      = replacePortsInEnvContent [(3000, 3010), (5432, 5442)]
        ("exceder-1".toList)
        [("PORT=3000".toList), ("DB_PORT=5432".toList)] :=
  replacePortsInEnvContent_idem [(3000, 3010), (5432, 5442)]
    ("exceder-1".toList) [("PORT=3000".toList), ("DB_PORT=5432".toList)]
    (by decide) (by decide) (by decide)

/-- C1: evaluation of the allocator at a failing input.  With main
ports `{3000, 3001}` and discriminator 1: when port 3001 is the only
port busy on the host, both main ports are allocated the same slot
port 3002 (the probe consults only live availability, not the ports
already assigned in the batch), so the output map is not injective;
and when no port is busy, main port 3000 is allocated slot port 3001,
which is itself a main port of the batch.  (Go's map iteration order
is unspecified; with the reversed order the same collisions occur.) -/
theorem scanAndAllocatePortsLoop_collides :
    scanAndAllocatePortsLoop (fun p => !(p == 3001)) 8
        [(3000, "PORT".toList), (3001, "URL".toList)] 1
      = some [(3000, 3002), (3001, 3002)] ∧
    scanAndAllocatePortsLoop (fun p => !(p == 3001)) 8
        [(3001, "URL".toList), (3000, "PORT".toList)] 1
      = some [(3001, 3002), (3000, 3002)] ∧
    scanAndAllocatePortsLoop (fun _ => true) 8
        [(3000, "PORT".toList), (3001, "URL".toList)] 1
      = some [(3000, 3001), (3001, 3002)] := by
  decide

/-- The probing loop can never produce a result when every bind is
refused, whatever the probe budget. -/
theorem probePort_none_of_never_avail :
    ∀ (fuel start : Nat), probePort (fun _ => false) fuel start = none := by
  intro fuel
  induction fuel with
  | zero => intro start; rfl
  | succ n ih =>
    intro start
    simp only [probePort, Bool.false_eq_true, if_false]
    exact ih (start + 1)

/-- C2: the collision-probing loop of the allocator has no retry cap.
In an environment that refuses every bind (`isPortAvailable` always
false, e.g. a permission or firewall failure), the probe finds no port
within any finite number of probes — the Go `for
!isPortAvailable(slotPort)` loop runs forever — and consequently the
allocation of any non-empty main-port set never completes; no fatal
error is ever surfaced, because the code has no error path at all. -/
theorem scanAndAllocatePortsLoop_no_retry_cap :
    (∀ (fuel start : Nat), probePort (fun _ => false) fuel start = none) ∧
    (∀ (fuel slotNum : Nat) (v : Nat × Str) (rest : List (Nat × Str)),
      scanAndAllocatePortsLoop (fun _ => false) fuel (v :: rest) slotNum
        = none) := by
  refine ⟨probePort_none_of_never_avail, ?_⟩
  intro fuel slotNum v rest
  have hnone : ∀ (l : List (Nat × Str)),
      l.foldl (fun acc mv => acc.bind fun m =>
        (probePort (fun _ => false) fuel (mv.1 + slotNum)).map
          fun s => m ++ [(mv.1, s)]) none = none := by
    intro l
    induction l with
    | nil => rfl
    | cons w ws ih =>
      simp only [List.foldl_cons]
      have hw : (none : Option (List (Nat × Nat))).bind (fun m =>
          (probePort (fun _ => false) fuel (w.1 + slotNum)).map
            fun s => m ++ [(w.1, s)]) = none := rfl
      rw [hw]
      exact ih
  unfold scanAndAllocatePortsLoop
  simp only [List.foldl_cons]
  have hstep : (some ([] : List (Nat × Nat))).bind (fun m =>
      (probePort (fun _ => false) fuel (v.1 + slotNum)).map
        fun s => m ++ [(v.1, s)]) = none := by
    rw [Option.some_bind, probePort_none_of_never_avail fuel (v.1 + slotNum)]
    rfl
  rw [hstep]
  exact hnone rest

/-- C4: the per-worktree classification of `cmdClean` equals the first
matching state of the spec's strict priority order locked > dirty >
unpushed > unmerged > clean; in particular, a working copy that is
dirty (and not locked) is reported dirty whatever its unpushed or
unmerged status — never unmerged. -/
theorem classifyWorktree_priority :
    (∀ (l u p : Bool) (um : Nat),
      classifyWorktree l u p um = specFirstMatchingState l u p um) ∧
    (∀ (p : Bool) (um : Nat),
      classifyWorktree false true p um = CleanState.dirty ∧
      classifyWorktree false true p um ≠ CleanState.unmerged) := by
  constructor
  · intro l u p um
    have hd := Nat.eq_zero_or_pos um
    cases l <;> cases u <;> cases p <;>
      rcases hd with h | h <;>
      first
      | (subst h; decide)
      | (simp [classifyWorktree, specFirstMatchingState, cleanPriority,
          cleanStateHolds, List.find?, h, decide_eq_true h])
  · intro p um
    constructor
    · simp [classifyWorktree]
    · simp [classifyWorktree]

/-- C5, counterexample: a `sync` whose rebase conflicts (no
uncommitted changes, one commit behind) exits 1 but does not leave the
working copy in its pre-rebase state — the conflicted rebase is left
in place, since the command runs no `git rebase --abort`. -/
theorem cmdSync_conflict_not_restored :
    (cmdSync false 1 true).2 = 1 ∧
    runGitOps true (cmdSync false 1 true).1 ≠ WorkTreeState.preRebase := by
  decide

/-- C5, amended: `sync` aborts before the rebase on any uncommitted
local change (exit 1 with the working copy untouched, only the status
check having run); on a rebase conflict it exits 1 with the working
copy left in the mid-rebase conflicted state — not restored — and the
trace contains no `git rebase --abort`; the user is instead told the
recovery commands (main.go 823-829). -/
theorem cmdSync_abort_semantics :
    (∀ (behind : Nat) (conflict : Bool),
      cmdSync true behind conflict = ([GitOp.gitStatusCheck], 1) ∧
      runGitOps conflict (cmdSync true behind conflict).1
        = WorkTreeState.preRebase) ∧
    (∀ (b : Nat),
      (cmdSync false (b + 1) true).2 = 1 ∧
      runGitOps true (cmdSync false (b + 1) true).1
        = WorkTreeState.midRebase ∧
      GitOp.gitRebaseAbort ∉ (cmdSync false (b + 1) true).1) := by
  constructor
  · intro behind conflict
    refine ⟨by simp [cmdSync], ?_⟩
    simp only [cmdSync, if_pos rfl]
    rfl
  · intro b
    have hb : cmdSync false (b + 1) true
        = ([GitOp.gitStatusCheck, GitOp.gitFetch, GitOp.gitRevListBehind,
            GitOp.gitRevListAhead, GitOp.gitRebase], 1) := by
      simp [cmdSync]
    rw [hb]
    refine ⟨rfl, rfl, ?_⟩
    decide

/-- C6: when the registry entry of the slot has the lock flag set,
`delete` and `done` exit 1 before taking any external action — the
action trace is empty, so no container is stopped, no worktree
removed, no registry entry touched — for every value of the force
flag. -/
theorem locked_blocks_delete_and_done
    (force slotExists uncommitted inMainWorktree mergeConflict : Bool)
    (reg : Registry) (slotName : Str) (cfg : SlotConfig)
    (hlook : List.lookup slotName reg.slots = some cfg)
    (hlocked : cfg.locked = true) :
    cmdDelete force slotExists uncommitted reg slotName = (1, [], reg) ∧
    cmdDone force inMainWorktree uncommitted mergeConflict reg slotName
      = (1, [], reg) := by
  have hsl : slotLocked reg slotName = true := by
    simp [slotLocked, hlook, hlocked]
  constructor
  · cases slotExists <;> simp [cmdDelete, hsl]
  · cases inMainWorktree <;> simp [cmdDone, hsl]

/-- C6 witness: on a concrete registry whose slot `app-1` is locked,
`delete --force` and `done --force` both exit 1 with no action taken
and the registry unchanged. -/
theorem locked_blocks_delete_and_done_witness :
    cmdDelete true true true lockedReg ("app-1".toList)
      = (1, [], lockedReg) ∧
    cmdDone true false true false lockedReg ("app-1".toList)
      = (1, [], lockedReg) :=
  locked_blocks_delete_and_done true true true false false lockedReg
    ("app-1".toList)
    ⟨"app".toList, 1, [], "slot-1".toList, "2026-01-01".toList, true,
      "wip".toList⟩
    (by decide) rfl

/-- C7: `delete` on an existing, unlocked slot with uncommitted
changes and no force flag exits 1 with no external action and the
persisted registry exactly as loaded — no slot entry removed or
modified. -/
theorem delete_dirty_no_force_blocks (reg : Registry) (slotName : Str)
    (hnl : slotLocked reg slotName = false) :
    cmdDelete false true true reg slotName = (1, [], reg) := by
  simp [cmdDelete, hnl]

/-- C7 witness: on a concrete registry whose slot `app-1` is unlocked,
a forceless `delete` with uncommitted changes exits 1 and leaves the
registry unchanged. -/
theorem delete_dirty_no_force_blocks_witness :
    cmdDelete false true true unlockedReg ("app-1".toList)
      = (1, [], unlockedReg) :=
  delete_dirty_no_force_blocks unlockedReg ("app-1".toList) (by decide)

/-- C8, counterexample: loading a registry document that carries an
unknown top-level field `custom` and saving it back produces a
document without that field — the Go `Registry` struct has nowhere to
hold it, so the rewrite drops it. -/
theorem registry_rewrite_drops_unknown_fields :
    marshalRegistry (loadRegistry (RegFile.content regFileWithUnknownField))
      = JVal.jobj [("projects".toList, JVal.jobj []),
        ("slots".toList, JVal.jobj [])] ∧
    (List.lookup ("custom".toList)
      (jobjFields regFileWithUnknownField)).isSome = true ∧
    (List.lookup ("custom".toList)
      (jobjFields (marshalRegistry (loadRegistry
        (RegFile.content regFileWithUnknownField))))).isSome = false :=
  ⟨rfl, rfl, rfl⟩

/-- C8, amended: the registry rewrite is not forward-compatible with
unknown fields — every top-level key of a saved document is one of
`groups`, `projects`, `slots`, so unknown fields are dropped rather
than preserved; the other half of the claim does hold: any of the
three maps missing from the loaded document defaults to the empty
map. -/
theorem registry_rewrite_amended :
    (∀ (reg : Registry) (k : Str),
      k ∈ (jobjFields (marshalRegistry reg)).map Prod.fst →
      k = "groups".toList ∨ k = "projects".toList ∨ k = "slots".toList) ∧
    (∀ (fs : List (Str × JVal)),
      (List.lookup ("groups".toList) fs = none →
        (loadRegistry (RegFile.content (JVal.jobj fs))).groups = []) ∧
      (List.lookup ("projects".toList) fs = none →
        (loadRegistry (RegFile.content (JVal.jobj fs))).projects = []) ∧
      (List.lookup ("slots".toList) fs = none →
        (loadRegistry (RegFile.content (JVal.jobj fs))).slots = [])) := by
  constructor
  · intro reg k hk
    by_cases hg : reg.groups = [] <;>
      simp [marshalRegistry, jobjFields, hg] at hk <;> tauto
  · intro fs
    refine ⟨?_, ?_, ?_⟩
    · intro h
      have hg : decodeMapField decodeGroupConfig fs "groups" = some none := by
        unfold decodeMapField
        rw [h]
      rcases hp : decodeMapField decodeProjectConfig fs "projects" with _ | p <;>
        rcases hs : decodeMapField decodeSlotConfig fs "slots" with _ | s <;>
          simp [loadRegistry, loadRegistryRaw, decodeRegistry, hg, hp, hs,
            emptyRegistry]
    · intro h
      have hp : decodeMapField decodeProjectConfig fs "projects" = some none := by
        unfold decodeMapField
        rw [h]
      rcases hg : decodeMapField decodeGroupConfig fs "groups" with _ | g <;>
        rcases hs : decodeMapField decodeSlotConfig fs "slots" with _ | s <;>
          simp [loadRegistry, loadRegistryRaw, decodeRegistry, hg, hp, hs,
            emptyRegistry]
    · intro h
      have hs : decodeMapField decodeSlotConfig fs "slots" = some none := by
        unfold decodeMapField
        rw [h]
      rcases hg : decodeMapField decodeGroupConfig fs "groups" with _ | g <;>
        rcases hp : decodeMapField decodeProjectConfig fs "projects" with _ | p <;>
          simp [loadRegistry, loadRegistryRaw, decodeRegistry, hg, hp, hs,
            emptyRegistry]

/-- C8 witness: the key `projects` is among the allowed saved keys,
and loading an empty document yields empty maps. -/
theorem registry_rewrite_amended_witness :
    ("projects".toList = "groups".toList ∨
      "projects".toList = "projects".toList ∨
      "projects".toList = "slots".toList) ∧
    (loadRegistry (RegFile.content (JVal.jobj []))).groups = [] :=
  ⟨registry_rewrite_amended.1 emptyRegistry ("projects".toList) (by decide),
   (registry_rewrite_amended.2 []).1 rfl⟩

/-- C10: `loadRegistry` is total and never reports failure.  An absent
or unreadable file and a file with malformed JSON both yield the empty
registry; a document the decoder rejects also yields the empty
registry; a decoded document whose `groups`/`projects`/`slots` map is
nil gets that map defaulted to the empty (non-nil) map; and the next
save after loading a corrupt file writes the well-formed rendering of
the empty registry over it. -/
theorem loadRegistry_total_and_defaults :
    (loadRegistry RegFile.absent = emptyRegistry) ∧
    (loadRegistry RegFile.malformed = emptyRegistry) ∧
    (∀ v, decodeRegistry v = none →
      loadRegistry (RegFile.content v) = emptyRegistry) ∧
    (∀ v raw, decodeRegistry v = some raw →
      (raw.groups = none → (loadRegistry (RegFile.content v)).groups = []) ∧
      (raw.projects = none →
        (loadRegistry (RegFile.content v)).projects = []) ∧
      (raw.slots = none → (loadRegistry (RegFile.content v)).slots = [])) ∧
    (marshalRegistry (loadRegistry RegFile.malformed)
      = JVal.jobj [("projects".toList, JVal.jobj []),
        ("slots".toList, JVal.jobj [])]) := by
  refine ⟨rfl, rfl, ?_, ?_, rfl⟩
  · intro v h
    simp [loadRegistry, loadRegistryRaw, h, emptyRegistry]
  · intro v raw h
    refine ⟨?_, ?_, ?_⟩ <;> intro hn <;>
      simp [loadRegistry, loadRegistryRaw, h, hn]

/-- C10 witness: a document that is a bare JSON string decodes to
nothing and loads as the empty registry; the empty JSON object decodes
with all three maps nil, and its loaded `groups` map is the empty
map. -/
theorem loadRegistry_total_and_defaults_witness :
    loadRegistry (RegFile.content (JVal.jstr ("bad".toList))) = emptyRegistry ∧
    (loadRegistry (RegFile.content (JVal.jobj []))).slots = [] :=
  ⟨loadRegistry_total_and_defaults.2.2.1 (JVal.jstr ("bad".toList)) rfl,
   (loadRegistry_total_and_defaults.2.2.2.1 (JVal.jobj []) ⟨none, none, none⟩
     rfl).2.2 rfl⟩

/-- Association lookup distributes over append. -/
theorem lookup_append_pairs (l₁ l₂ : List (Nat × Str)) (k : Nat) :
    List.lookup k (l₁ ++ l₂)
      = match List.lookup k l₁ with
        | some v => some v
        | none => List.lookup k l₂ := by
  induction l₁ with
  | nil => simp
  | cons a t ih =>
    rcases a with ⟨ka, va⟩
    by_cases hk : k = ka
    · subst hk
      simp [List.lookup]
    · have hbeq : (k == ka) = false := by simp [hk]
      simp [List.lookup, hbeq, ih]

/-- A key that looks up to nothing is not among the keys. -/
theorem lookup_none_not_key (l : List (Nat × Str)) (k : Nat)
    (h : List.lookup k l = none) : k ∉ l.map Prod.fst := by
  induction l with
  | nil => simp
  | cons a t ih =>
    rcases a with ⟨ka, va⟩
    by_cases hk : k = ka
    · subst hk
      simp [List.lookup] at h
    · have hbeq : (k == ka) = false := by simp [hk]
      simp only [List.lookup, hbeq] at h
      simp only [List.map_cons, List.mem_cons]
      rintro (h1 | h2)
      · exact hk h1
      · exact ih h h2

/-- The first-wins insertion keeps the key list duplicate-free. -/
theorem insertFirst_nodup_keys (acc : List (Nat × Str)) (kv : Nat × Str)
    (h : (acc.map Prod.fst).Nodup) :
    ((insertFirst acc kv).map Prod.fst).Nodup := by
  unfold insertFirst
  by_cases hs : (List.lookup kv.1 acc).isSome
  · simp [hs, h]
  · have hnone : List.lookup kv.1 acc = none :=
      Option.not_isSome_iff_eq_none.mp hs
    have hmem := lookup_none_not_key acc kv.1 hnone
    simp [hs, List.nodup_append, h]
    intro x hx
    exact hmem (List.mem_map.mpr ⟨(kv.1, x), hx, rfl⟩)

/-- Folding the first-wins insertion keeps the key list
duplicate-free. -/
theorem foldl_insertFirst_nodup (occs : List (Nat × Str)) :
    ∀ (acc : List (Nat × Str)), (acc.map Prod.fst).Nodup →
      ((occs.foldl insertFirst acc).map Prod.fst).Nodup := by
  induction occs with
  | nil => intro acc h; exact h
  | cons kv occs ih =>
    intro acc h
    simp only [List.foldl_cons]
    exact ih (insertFirst acc kv) (insertFirst_nodup_keys acc kv h)

/-- Folding the first-wins insertion computes, for each key, the value
of the first occurrence in the stream (unless the accumulator already
holds the key). -/
theorem foldl_insertFirst_lookup (occs : List (Nat × Str)) :
    ∀ (acc : List (Nat × Str)) (k : Nat),
      List.lookup k (occs.foldl insertFirst acc)
        = match List.lookup k acc with
          | some v => some v
          | none => (occs.find? (fun kv => kv.1 == k)).map Prod.snd := by
  induction occs with
  | nil =>
    intro acc k
    cases h : List.lookup k acc <;> simp [h]
  | cons kv occs ih =>
    intro acc k
    simp only [List.foldl_cons]
    rw [ih (insertFirst acc kv) k]
    by_cases hk : kv.1 = k
    · subst hk
      cases hA : List.lookup kv.1 acc with
      | some v =>
        have hins : insertFirst acc kv = acc := by
          unfold insertFirst
          simp [hA]
        rw [hins, hA]
      | none =>
        have hins : insertFirst acc kv = acc ++ [kv] := by
          unfold insertFirst
          simp [hA]
        rw [hins, lookup_append_pairs, hA]
        simp [List.lookup, List.find?]
    · have hbeq : (kv.1 == k) = false := by simp [hk]
      have hbeq2 : (k == kv.1) = false := by
        rw [beq_eq_false_iff_ne]
        exact Ne.symm hk
      have hins : List.lookup k (insertFirst acc kv) = List.lookup k acc := by
        unfold insertFirst
        by_cases hA : (List.lookup kv.1 acc).isSome
        · simp [hA]
        · rw [if_neg hA, lookup_append_pairs]
          cases h' : List.lookup k acc <;> simp [List.lookup, hbeq2]
      rw [hins]
      cases h' : List.lookup k acc <;> simp [List.find?, hbeq]

/-- C9: for every walked file list, `scanPorts` records each
discovered port once (its key list is duplicate-free) and maps a port
to the label of the first extraction that produced it in scan order;
being a pure function of the walked tree, re-running it on an
unchanged tree yields the identical map. -/
theorem scanPorts_first_label_and_unique :
    (∀ (files : List ScannedFile) (k : Nat),
      List.lookup k (scanPorts files)
        = ((files.flatMap filePortOccs).find?
            (fun kv => kv.1 == k)).map Prod.snd) ∧
    (∀ (files : List ScannedFile),
      ((scanPorts files).map Prod.fst).Nodup) := by
  constructor
  · intro files k
    unfold scanPorts
    rw [foldl_insertFirst_lookup]
    rfl
  · intro files
    unfold scanPorts
    exact foldl_insertFirst_nodup _ [] (by simp)
